import Mathlib

/-!
Shallow embedding of the `SimpleMemcached` cache engine (`src/cache.py`) and of
one request iteration of the TCP protocol handler (`src/servidor.py`).

Modelling conventions:
* Python byte strings and their decoded text forms are both modelled as `String`
  (the engine encodes/decodes transparently and never inspects raw bytes).
* `time.time()` is modelled by an explicit integer timestamp `now : Int` passed
  to each operation; the several `time.time()` calls inside one engine operation
  (which runs atomically under the lock) are modelled by the single `now`.
* Python dicts (`store`, `cas_versions`) are association lists observed only
  through `lookupKV`; `dict.pop(k, None)` is `eraseKV`, `d[k] = v` is `insertKV`.
* `int(...)` parsing of a decoded value is modelled by `parsePyInt`, covering
  the ASCII forms Python accepts: surrounding whitespace, an optional sign, and
  digit groups separated by single underscores.
-/

namespace SimpleMemcached

/-- Entry is the tuple `(value, flags, expire_at, cas_token)` stored per key. -/
structure Entry where
  value : String
  flags : Int
  expireAt : Int
  casToken : Int
deriving Repr, DecidableEq

/-- Cache is the engine state: the two dicts `store` and `cas_versions`. -/
structure Cache where
  store : List (String × Entry)
  casVersions : List (String × Int)
deriving Repr, DecidableEq

/-- empty engine state, as built by `SimpleMemcached.__init__`. -/
def emptyCache : Cache := ⟨[], []⟩

/-- lookupKV models `dict.get(k)`: the value at the first matching key. -/
def lookupKV {α : Type} : List (String × α) → String → Option α
  | [], _ => none
  | (k0, v) :: rest, k => if k = k0 then some v else lookupKV rest k

/-- eraseKV models `dict.pop(k, None)` / `del d[k]`: drop the binding of `k`. -/
def eraseKV {α : Type} : List (String × α) → String → List (String × α)
  | [], _ => []
  | (k0, v) :: rest, k => if k0 = k then eraseKV rest k else (k0, v) :: eraseKV rest k

/-- insertKV models `d[k] = v`: bind `k` to `v`, dropping any old binding. -/
def insertKV {α : Type} (l : List (String × α)) (k : String) (v : α) :
    List (String × α) :=
  (k, v) :: eraseKV l k

/-- purge removes key `k` from both the store and the version-counter dict,
as the two `pop` calls of `_get_valid` (and the body of `delete`) do. -/
def purge (c : Cache) (k : String) : Cache :=
  ⟨eraseKV c.store k, eraseKV c.casVersions k⟩

/-- isExpired is `SimpleMemcached._is_expired`: expired iff `expire_at` is not
the never-sentinel `0` and the current time is strictly past it. -/
def isExpired (now : Int) (meta : Entry) : Bool :=
  meta.expireAt ≠ 0 && now > meta.expireAt

/-- getValid is `SimpleMemcached._get_valid`: return a live entry unchanged;
otherwise pop the key from both dicts and report `none`. -/
def getValid (now : Int) (c : Cache) (key : String) : Option Entry × Cache :=
  match lookupKV c.store key with
  | some meta => if isExpired now meta then (none, purge c key) else (some meta, c)
  | none => (none, purge c key)

/-- nextCasToken is `SimpleMemcached._next_cas_token`:
`cas_versions[key] = cas_versions.get(key, 0) + 1`, returning the new token. -/
def nextCasToken (c : Cache) (key : String) : Int × Cache :=
  let n := (lookupKV c.casVersions key).getD 0 + 1
  (n, { c with casVersions := insertKV c.casVersions key n })

/-- set is `SimpleMemcached.set`: overwrite unconditionally, mapping any
non-positive `exptime` to the never-expires sentinel `0`. -/
def set (now : Int) (c : Cache) (key value : String) (flags exptime : Int) :
    String × Cache :=
  let expireAt := if exptime > 0 then now + exptime else 0
  let (tok, c1) := nextCasToken c key
  ("STORED", { c1 with store := insertKV c1.store key ⟨value, flags, expireAt, tok⟩ })

/-- get is `SimpleMemcached.get`: the decoded value of a live entry. -/
def get (now : Int) (c : Cache) (key : String) : Option String × Cache :=
  match getValid now c key with
  | (some meta, c1) => (some meta.value, c1)
  | (none, c1) => (none, c1)

/-- gets is `SimpleMemcached.gets`: decoded value paired with the CAS token. -/
def gets (now : Int) (c : Cache) (key : String) : Option (String × Int) × Cache :=
  match getValid now c key with
  | (some meta, c1) => (some (meta.value, meta.casToken), c1)
  | (none, c1) => (none, c1)

/-- getMulti is `SimpleMemcached.get_multi`. The Python dict comprehension
evaluates `_get_valid(k)` once as the filter condition and, when that is
truthy, a second time to fetch the value; both calls are modelled. -/
def getMulti (now : Int) : Cache → List String → List (String × String) × Cache
  | c, [] => ([], c)
  | c, k :: ks =>
    match getValid now c k with
    | (none, c1) => getMulti now c1 ks
    | (some _, c1) =>
      match getValid now c1 k with
      | (some meta, c2) =>
        let rest := getMulti now c2 ks
        ((k, meta.value) :: rest.1, rest.2)
      | (none, c2) => getMulti now c2 ks

/-- add is `SimpleMemcached.add`: store only when no live entry exists. Note
the truthiness test `if exptime` (any nonzero `exptime`, also a negative one,
yields `time.time() + exptime`), unlike the `exptime > 0` test of `set`. -/
def add (now : Int) (c : Cache) (key value : String) (flags exptime : Int) :
    String × Cache :=
  match getValid now c key with
  | (some _, c1) => ("NOT_STORED", c1)
  | (none, c1) =>
    let expireAt := if exptime ≠ 0 then now + exptime else 0
    let (tok, c2) := nextCasToken c1 key
    ("STORED", { c2 with store := insertKV c2.store key ⟨value, flags, expireAt, tok⟩ })

/-- replace is `SimpleMemcached.replace`: delegate to `set` only when a live
entry exists. -/
def replace (now : Int) (c : Cache) (key value : String) (flags exptime : Int) :
    String × Cache :=
  match getValid now c key with
  | (none, c1) => ("NOT_STORED", c1)
  | (some _, c1) => set now c1 key value flags exptime

/-- append is `SimpleMemcached.append`: concatenate to the end, reusing the
stored flags, expiry and CAS token; the version-counter dict is untouched. -/
def append (now : Int) (c : Cache) (key value : String) : String × Cache :=
  match getValid now c key with
  | (none, c1) => ("NOT_STORED", c1)
  | (some meta, c1) =>
    ("STORED",
      { c1 with store :=
          insertKV c1.store key ⟨meta.value ++ value, meta.flags, meta.expireAt, meta.casToken⟩ })

/-- prepend is `SimpleMemcached.prepend`: concatenate to the front, reusing the
stored flags, expiry and CAS token; the version-counter dict is untouched. -/
def prepend (now : Int) (c : Cache) (key value : String) : String × Cache :=
  match getValid now c key with
  | (none, c1) => ("NOT_STORED", c1)
  | (some meta, c1) =>
    ("STORED",
      { c1 with store :=
          insertKV c1.store key ⟨value ++ meta.value, meta.flags, meta.expireAt, meta.casToken⟩ })

/-- delete is `SimpleMemcached.delete`: the `key in self.store` test
short-circuits, so `_get_valid` runs only when the store holds the key. -/
def delete (now : Int) (c : Cache) (key : String) : String × Cache :=
  if (lookupKV c.store key).isSome then
    match getValid now c key with
    | (some _, c1) => ("DELETED", purge c1 key)
    | (none, c1) => ("NOT_FOUND", c1)
  else ("NOT_FOUND", c)

/-- parsePyDigits folds a digit run in which single underscores may separate
digits (Python `int` accepts `1_000`); it rejects leading, trailing and
doubled underscores. `acc` is the value of the digits consumed so far. -/
def parsePyDigits : Nat → List Char → Option Nat
  | acc, [] => some acc
  | acc, ch :: rest =>
    if ch.isDigit then parsePyDigits (10 * acc + (ch.toNat - 48)) rest
    else if ch = '_' then
      match rest with
      | d :: rest2 => if d.isDigit then parsePyDigits (10 * acc + (d.toNat - 48)) rest2 else none
      | [] => none
    else none

/-- isPySpace covers the ASCII whitespace `int(...)` strips. -/
def isPySpace (ch : Char) : Bool :=
  ch = ' ' || ch = '\t' || ch = '\n' || ch = '\r' || ch = '\x0b' || ch = '\x0c'

/-- parsePyInt models `int(s)` on ASCII input: strip surrounding whitespace,
then an optional sign followed by a nonempty digit run (with single
underscores between digits). Non-ASCII digit forms are out of scope. -/
def parsePyInt (s : String) : Option Int :=
  let cs := (s.data.dropWhile isPySpace).reverse.dropWhile isPySpace |>.reverse
  let core : List Char → Option Nat := fun l =>
    match l with
    | [] => none
    | d :: rest => if d.isDigit then parsePyDigits (d.toNat - 48) rest else none
  match cs with
  | '+' :: rest => (core rest).map fun n => (n : Int)
  | '-' :: rest => (core rest).map fun n => -(n : Int)
  | rest => (core rest).map fun n => (n : Int)

/-- incr is `SimpleMemcached.incr`. Both `int(val.decode())` and `int(value)`
sit inside the same `try`, so either parse failing yields the client error;
on success the new value goes through the `set` path with the remaining
time `meta[2] - time.time()` as its `exptime`. -/
def incr (now : Int) (c : Cache) (key deltaStr : String) : String × Cache :=
  match getValid now c key with
  | (none, c1) => ("NOT_FOUND", c1)
  | (some meta, c1) =>
    match parsePyInt meta.value, parsePyInt deltaStr with
    | some old, some d =>
      set now c1 key (toString (old + d)) meta.flags (meta.expireAt - now)
    | _, _ => ("CLIENT_ERROR cannot increment", c1)

/-- decr is `SimpleMemcached.decr`: as `incr` but storing
`max(0, old - delta)`, floored at zero. -/
def decr (now : Int) (c : Cache) (key deltaStr : String) : String × Cache :=
  match getValid now c key with
  | (none, c1) => ("NOT_FOUND", c1)
  | (some meta, c1) =>
    match parsePyInt meta.value, parsePyInt deltaStr with
    | some old, some d =>
      set now c1 key (toString (max 0 (old - d))) meta.flags (meta.expireAt - now)
    | _, _ => ("CLIENT_ERROR cannot decrement", c1)

/-- cas is `SimpleMemcached.cas`: not-found on a missing/expired key, a
version conflict on a token mismatch, otherwise exactly the `set` path. -/
def cas (now : Int) (c : Cache) (key value : String) (casToken flags exptime : Int) :
    String × Cache :=
  match getValid now c key with
  | (none, c1) => ("NOT_FOUND", c1)
  | (some meta, c1) =>
    if meta.casToken ≠ casToken then ("EXISTS", c1)
    else set now c1 key value flags exptime

/-- flushAll is `SimpleMemcached.flush_all`: clear both dicts, answer `OK`. -/
def flushAll (_c : Cache) : String × Cache :=
  ("OK", emptyCache)

/-- Inv is the inductive engine invariant: every store key has a
version-counter entry equal to its entry's CAS token, and every
version-counter value is at least 1. -/
def Inv (c : Cache) : Prop :=
  (∀ k e, lookupKV c.store k = some e → lookupKV c.casVersions k = some e.casToken) ∧
  (∀ k n, lookupKV c.casVersions k = some n → 1 ≤ n)

theorem lookupKV_eraseKV {α : Type} (l : List (String × α)) (k k2 : String) :
    lookupKV (eraseKV l k) k2 = if k2 = k then none else lookupKV l k2 := by
  induction l with
  | nil => simp [eraseKV, lookupKV]
  | cons p rest ih =>
    obtain ⟨k0, v⟩ := p
    by_cases h0 : k0 = k
    · subst h0
      have he : eraseKV ((k0, v) :: rest) k0 = eraseKV rest k0 := by simp [eraseKV]
      rw [he, ih]
      by_cases h2 : k2 = k0 <;> simp [h2, lookupKV]
    · have he : eraseKV ((k0, v) :: rest) k = (k0, v) :: eraseKV rest k := by
        simp [eraseKV, h0]
      rw [he]
      by_cases h2 : k2 = k0
      · subst h2
        simp [lookupKV, h0]
      · simp [lookupKV, h2, ih]

theorem lookupKV_insertKV {α : Type} (l : List (String × α)) (k : String) (v : α)
    (k2 : String) :
    lookupKV (insertKV l k v) k2 = if k2 = k then some v else lookupKV l k2 := by
  by_cases h : k2 = k <;> simp [insertKV, lookupKV, h, lookupKV_eraseKV]

theorem eraseKV_idem {α : Type} (l : List (String × α)) (k : String) :
    eraseKV (eraseKV l k) k = eraseKV l k := by
  induction l with
  | nil => simp [eraseKV]
  | cons p rest ih =>
    obtain ⟨k0, v⟩ := p
    by_cases h0 : k0 = k <;> simp [eraseKV, h0, ih]

theorem eraseKV_of_lookup_none {α : Type} (l : List (String × α)) (k : String)
    (h : lookupKV l k = none) : eraseKV l k = l := by
  induction l with
  | nil => simp [eraseKV]
  | cons p rest ih =>
    obtain ⟨k0, v⟩ := p
    by_cases h0 : k0 = k
    · subst h0; simp [lookupKV] at h
    · have h2 : lookupKV rest k = none := by
        by_cases hk : k = k0
        · exact absurd hk.symm h0
        · simpa [lookupKV, hk] using h
      simp [eraseKV, h0, ih h2]

theorem purge_idem (c : Cache) (k : String) : purge (purge c k) k = purge c k := by
  simp [purge, eraseKV_idem]

theorem purge_of_absent (c : Cache) (k : String)
    (hs : lookupKV c.store k = none) (hv : lookupKV c.casVersions k = none) :
    purge c k = c := by
  cases c
  simp [purge, eraseKV_of_lookup_none _ _ hs, eraseKV_of_lookup_none _ _ hv]

theorem getValid_purge (now : Int) (c : Cache) (k : String) :
    getValid now (purge c k) k = (none, purge c k) := by
  simp [getValid, purge, lookupKV_eraseKV, eraseKV_idem]

theorem getValid_live (now : Int) (c : Cache) (k : String) (en : Entry)
    (hs : lookupKV c.store k = some en) (hl : isExpired now en = false) :
    getValid now c k = (some en, c) := by
  simp [getValid, hs, hl]

theorem getValid_absent (now : Int) (c : Cache) (k : String)
    (hs : lookupKV c.store k = none) :
    getValid now c k = (none, purge c k) := by
  simp [getValid, hs]

theorem getValid_expired (now : Int) (c : Cache) (k : String) (en : Entry)
    (hs : lookupKV c.store k = some en) (hx : isExpired now en = true) :
    getValid now c k = (none, purge c k) := by
  simp [getValid, hs, hx]

theorem set_eq (now : Int) (c : Cache) (k v : String) (f e : Int) :
    set now c k v f e =
      ("STORED",
        ⟨insertKV c.store k
            ⟨v, f, if e > 0 then now + e else 0, (lookupKV c.casVersions k).getD 0 + 1⟩,
          insertKV c.casVersions k ((lookupKV c.casVersions k).getD 0 + 1)⟩) := rfl

theorem isExpired_fresh (now e : Int) (v : String) (f t : Int) :
    isExpired now ⟨v, f, if e > 0 then now + e else 0, t⟩ = false := by
  by_cases he : e > 0
  · simp only [isExpired, if_pos he]
    simp
    omega
  · simp [isExpired, he]

theorem get_none (now : Int) (c : Cache) (k : String) (c2 : Cache)
    (hgv : getValid now c k = (none, c2)) : get now c k = (none, c2) := by
  unfold get; rw [hgv]

theorem get_some (now : Int) (c : Cache) (k : String) (meta : Entry) (c2 : Cache)
    (hgv : getValid now c k = (some meta, c2)) :
    get now c k = (some meta.value, c2) := by
  unfold get; rw [hgv]

theorem gets_none (now : Int) (c : Cache) (k : String) (c2 : Cache)
    (hgv : getValid now c k = (none, c2)) : gets now c k = (none, c2) := by
  unfold gets; rw [hgv]

theorem gets_some (now : Int) (c : Cache) (k : String) (meta : Entry) (c2 : Cache)
    (hgv : getValid now c k = (some meta, c2)) :
    gets now c k = (some (meta.value, meta.casToken), c2) := by
  unfold gets; rw [hgv]

theorem add_found (now : Int) (c : Cache) (k v : String) (f e : Int) (meta : Entry)
    (c2 : Cache) (hgv : getValid now c k = (some meta, c2)) :
    add now c k v f e = ("NOT_STORED", c2) := by
  unfold add; rw [hgv]

theorem add_missing (now : Int) (c : Cache) (k v : String) (f e : Int) (c2 : Cache)
    (hgv : getValid now c k = (none, c2)) :
    add now c k v f e =
      ("STORED",
        ⟨insertKV c2.store k
            ⟨v, f, if e ≠ 0 then now + e else 0, (lookupKV c2.casVersions k).getD 0 + 1⟩,
          insertKV c2.casVersions k ((lookupKV c2.casVersions k).getD 0 + 1)⟩) := by
  unfold add; rw [hgv]; rfl

theorem replace_missing (now : Int) (c : Cache) (k v : String) (f e : Int) (c2 : Cache)
    (hgv : getValid now c k = (none, c2)) :
    replace now c k v f e = ("NOT_STORED", c2) := by
  unfold replace; rw [hgv]

theorem replace_found (now : Int) (c : Cache) (k v : String) (f e : Int) (meta : Entry)
    (c2 : Cache) (hgv : getValid now c k = (some meta, c2)) :
    replace now c k v f e = set now c2 k v f e := by
  unfold replace; rw [hgv]

theorem append_missing (now : Int) (c : Cache) (k v : String) (c2 : Cache)
    (hgv : getValid now c k = (none, c2)) :
    append now c k v = ("NOT_STORED", c2) := by
  unfold append; rw [hgv]

theorem append_found (now : Int) (c : Cache) (k v : String) (meta : Entry) (c2 : Cache)
    (hgv : getValid now c k = (some meta, c2)) :
    append now c k v =
      ("STORED",
        ⟨insertKV c2.store k ⟨meta.value ++ v, meta.flags, meta.expireAt, meta.casToken⟩,
          c2.casVersions⟩) := by
  unfold append; rw [hgv]

theorem prepend_missing (now : Int) (c : Cache) (k v : String) (c2 : Cache)
    (hgv : getValid now c k = (none, c2)) :
    prepend now c k v = ("NOT_STORED", c2) := by
  unfold prepend; rw [hgv]

theorem prepend_found (now : Int) (c : Cache) (k v : String) (meta : Entry) (c2 : Cache)
    (hgv : getValid now c k = (some meta, c2)) :
    prepend now c k v =
      ("STORED",
        ⟨insertKV c2.store k ⟨v ++ meta.value, meta.flags, meta.expireAt, meta.casToken⟩,
          c2.casVersions⟩) := by
  unfold prepend; rw [hgv]

theorem delete_not_mem (now : Int) (c : Cache) (k : String)
    (hs : lookupKV c.store k = none) : delete now c k = ("NOT_FOUND", c) := by
  unfold delete; simp [hs]

theorem delete_expired2 (now : Int) (c : Cache) (k : String) (en : Entry)
    (hs : lookupKV c.store k = some en) (hx : isExpired now en = true) :
    delete now c k = ("NOT_FOUND", purge c k) := by
  unfold delete
  rw [getValid_expired now c k en hs hx]
  simp [hs]

theorem delete_live (now : Int) (c : Cache) (k : String) (en : Entry)
    (hs : lookupKV c.store k = some en) (hx : isExpired now en = false) :
    delete now c k = ("DELETED", purge c k) := by
  unfold delete
  rw [getValid_live now c k en hs hx]
  simp [hs]

theorem incr_notfound (now : Int) (c : Cache) (k ds : String) (c2 : Cache)
    (hgv : getValid now c k = (none, c2)) :
    incr now c k ds = ("NOT_FOUND", c2) := by
  unfold incr; rw [hgv]

theorem incr_found (now : Int) (c : Cache) (k ds : String) (meta : Entry) (c2 : Cache)
    (old d : Int) (hgv : getValid now c k = (some meta, c2))
    (hv : parsePyInt meta.value = some old) (hd : parsePyInt ds = some d) :
    incr now c k ds = set now c2 k (toString (old + d)) meta.flags (meta.expireAt - now) := by
  unfold incr; rw [hgv]; simp [hv, hd]

theorem incr_err (now : Int) (c : Cache) (k ds : String) (meta : Entry) (c2 : Cache)
    (hgv : getValid now c k = (some meta, c2))
    (hor : parsePyInt meta.value = none ∨ parsePyInt ds = none) :
    incr now c k ds = ("CLIENT_ERROR cannot increment", c2) := by
  unfold incr; rw [hgv]
  rcases hv : parsePyInt meta.value with _ | old <;>
    rcases hd : parsePyInt ds with _ | d <;>
    simp_all

theorem decr_notfound (now : Int) (c : Cache) (k ds : String) (c2 : Cache)
    (hgv : getValid now c k = (none, c2)) :
    decr now c k ds = ("NOT_FOUND", c2) := by
  unfold decr; rw [hgv]

theorem decr_found (now : Int) (c : Cache) (k ds : String) (meta : Entry) (c2 : Cache)
    (old d : Int) (hgv : getValid now c k = (some meta, c2))
    (hv : parsePyInt meta.value = some old) (hd : parsePyInt ds = some d) :
    decr now c k ds =
      set now c2 k (toString (max 0 (old - d))) meta.flags (meta.expireAt - now) := by
  unfold decr; rw [hgv]; simp [hv, hd]

theorem decr_err (now : Int) (c : Cache) (k ds : String) (meta : Entry) (c2 : Cache)
    (hgv : getValid now c k = (some meta, c2))
    (hor : parsePyInt meta.value = none ∨ parsePyInt ds = none) :
    decr now c k ds = ("CLIENT_ERROR cannot decrement", c2) := by
  unfold decr; rw [hgv]
  rcases hv : parsePyInt meta.value with _ | old <;>
    rcases hd : parsePyInt ds with _ | d <;>
    simp_all

theorem cas_notfound (now : Int) (c : Cache) (k v : String) (tok f e : Int) (c2 : Cache)
    (hgv : getValid now c k = (none, c2)) :
    cas now c k v tok f e = ("NOT_FOUND", c2) := by
  unfold cas; rw [hgv]

theorem cas_mismatch (now : Int) (c : Cache) (k v : String) (tok f e : Int)
    (meta : Entry) (c2 : Cache) (hgv : getValid now c k = (some meta, c2))
    (hne : meta.casToken ≠ tok) :
    cas now c k v tok f e = ("EXISTS", c2) := by
  unfold cas; rw [hgv]; simp [hne]

theorem cas_match (now : Int) (c : Cache) (k v : String) (tok f e : Int)
    (meta : Entry) (c2 : Cache) (hgv : getValid now c k = (some meta, c2))
    (heq : meta.casToken = tok) :
    cas now c k v tok f e = set now c2 k v f e := by
  unfold cas; rw [hgv]; simp [heq]

theorem getMulti_cons_none (now : Int) (c : Cache) (k : String) (ks : List String)
    (c2 : Cache) (hgv : getValid now c k = (none, c2)) :
    getMulti now c (k :: ks) = getMulti now c2 ks := by
  simp only [getMulti, hgv]

theorem getMulti_cons_some (now : Int) (c : Cache) (k : String) (ks : List String)
    (meta : Entry) (hgv : getValid now c k = (some meta, c)) :
    getMulti now c (k :: ks) =
      ((k, meta.value) :: (getMulti now c ks).1, (getMulti now c ks).2) := by
  simp only [getMulti, hgv]

theorem getValid_some_state (now : Int) (c : Cache) (k : String) (meta : Entry)
    (c2 : Cache) (hgv : getValid now c k = (some meta, c2)) : c2 = c := by
  unfold getValid at hgv
  cases hl : lookupKV c.store k with
  | none => rw [hl] at hgv; simp at hgv
  | some m =>
    rw [hl] at hgv
    by_cases hx : isExpired now m = true
    · simp [hx] at hgv
    · simp only [Bool.not_eq_true] at hx
      simp [hx] at hgv
      exact hgv.2.symm

theorem Inv_empty : Inv emptyCache := by
  constructor <;> intro k e h <;> simp [emptyCache, lookupKV] at h

theorem Inv_purge (c : Cache) (k : String) (h : Inv c) : Inv (purge c k) := by
  obtain ⟨h1, h2⟩ := h
  constructor
  · intro k2 e2 hl
    simp only [purge, lookupKV_eraseKV] at hl ⊢
    by_cases hk : k2 = k
    · simp [hk] at hl
    · simp only [if_neg hk] at hl ⊢
      exact h1 k2 e2 hl
  · intro k2 n hl
    simp only [purge, lookupKV_eraseKV] at hl
    by_cases hk : k2 = k
    · simp [hk] at hl
    · simp only [if_neg hk] at hl
      exact h2 k2 n hl

theorem Inv_getValid (now : Int) (c : Cache) (k : String) (h : Inv c) :
    Inv (getValid now c k).2 := by
  unfold getValid
  cases hl : lookupKV c.store k with
  | none => exact Inv_purge c k h
  | some meta =>
    by_cases hx : isExpired now meta = true
    · simp [hx]; exact Inv_purge c k h
    · simp at hx; simp [hx]; exact h

theorem Inv_set (now : Int) (c : Cache) (k v : String) (f e : Int) (h : Inv c) :
    Inv (set now c k v f e).2 := by
  obtain ⟨h1, h2⟩ := h
  rw [set_eq]
  constructor
  · intro k2 e2 hl
    simp only [lookupKV_insertKV] at hl ⊢
    by_cases hk : k2 = k
    · simp only [if_pos hk] at hl ⊢
      cases hl
      rfl
    · simp only [if_neg hk] at hl ⊢
      exact h1 k2 e2 hl
  · intro k2 n hl
    simp only [lookupKV_insertKV] at hl
    by_cases hk : k2 = k
    · simp only [if_pos hk, Option.some.injEq] at hl
      cases hv : lookupKV c.casVersions k with
      | none => simp [hv] at hl; omega
      | some m => have := h2 k m hv; simp [hv] at hl; omega
    · simp only [if_neg hk] at hl
      exact h2 k2 n hl

theorem Inv_addStore (now : Int) (c : Cache) (k v : String) (f e : Int) (h : Inv c) :
    Inv ⟨insertKV c.store k
          ⟨v, f, if e ≠ 0 then now + e else 0, (lookupKV c.casVersions k).getD 0 + 1⟩,
        insertKV c.casVersions k ((lookupKV c.casVersions k).getD 0 + 1)⟩ := by
  obtain ⟨h1, h2⟩ := h
  constructor
  · intro k2 e2 hl
    simp only [lookupKV_insertKV] at hl ⊢
    by_cases hk : k2 = k
    · simp only [if_pos hk] at hl ⊢
      cases hl
      rfl
    · simp only [if_neg hk] at hl ⊢
      exact h1 k2 e2 hl
  · intro k2 n hl
    simp only [lookupKV_insertKV] at hl
    by_cases hk : k2 = k
    · simp only [if_pos hk, Option.some.injEq] at hl
      cases hv : lookupKV c.casVersions k with
      | none => simp [hv] at hl; omega
      | some m => have := h2 k m hv; simp [hv] at hl; omega
    · simp only [if_neg hk] at hl
      exact h2 k2 n hl

theorem Inv_keepToken (c : Cache) (k : String) (en : Entry) (v2 : String)
    (hs : lookupKV c.store k = some en) (h : Inv c) :
    Inv ⟨insertKV c.store k ⟨v2, en.flags, en.expireAt, en.casToken⟩, c.casVersions⟩ := by
  obtain ⟨h1, h2⟩ := h
  constructor
  · intro k2 e2 hl
    simp only [lookupKV_insertKV] at hl ⊢
    by_cases hk : k2 = k
    · simp only [if_pos hk, Option.some.injEq] at hl
      rw [hk, ← hl]
      simpa using h1 k en hs
    · simp only [if_neg hk] at hl
      exact h1 k2 e2 hl
  · exact h2

theorem Inv_get (now : Int) (c : Cache) (k : String) (h : Inv c) :
    Inv (get now c k).2 := by
  unfold get
  have hg := Inv_getValid now c k h
  cases hgv : getValid now c k with
  | mk fst snd =>
    rw [hgv] at hg
    cases fst <;> simpa using hg

theorem Inv_gets (now : Int) (c : Cache) (k : String) (h : Inv c) :
    Inv (gets now c k).2 := by
  unfold gets
  have hg := Inv_getValid now c k h
  cases hgv : getValid now c k with
  | mk fst snd =>
    rw [hgv] at hg
    cases fst <;> simpa using hg

theorem Inv_getMulti (now : Int) (ks : List String) (c : Cache) (h : Inv c) :
    Inv (getMulti now c ks).2 := by
  induction ks generalizing c with
  | nil => simpa [getMulti] using h
  | cons k rest ih =>
    cases hsl : lookupKV c.store k with
    | none =>
      rw [getMulti_cons_none now c k rest _ (getValid_absent now c k hsl)]
      exact ih (purge c k) (Inv_purge c k h)
    | some meta =>
      by_cases hx : isExpired now meta = true
      · rw [getMulti_cons_none now c k rest _ (getValid_expired now c k meta hsl hx)]
        exact ih (purge c k) (Inv_purge c k h)
      · simp only [Bool.not_eq_true] at hx
        rw [getMulti_cons_some now c k rest meta (getValid_live now c k meta hsl hx)]
        simpa using ih c h

theorem Inv_add (now : Int) (c : Cache) (k v : String) (f e : Int) (h : Inv c) :
    Inv (add now c k v f e).2 := by
  unfold add
  have hg := Inv_getValid now c k h
  cases hgv : getValid now c k with
  | mk m c1 =>
    rw [hgv] at hg
    cases m with
    | some meta => simpa using hg
    | none =>
      simpa [nextCasToken] using Inv_addStore now c1 k v f e hg

theorem Inv_replace (now : Int) (c : Cache) (k v : String) (f e : Int) (h : Inv c) :
    Inv (replace now c k v f e).2 := by
  unfold replace
  have hg := Inv_getValid now c k h
  cases hgv : getValid now c k with
  | mk m c1 =>
    rw [hgv] at hg
    cases m with
    | none => simpa using hg
    | some meta => simpa using Inv_set now c1 k v f e hg

theorem Inv_append (now : Int) (c : Cache) (k v : String) (h : Inv c) :
    Inv (append now c k v).2 := by
  unfold append
  cases hsl : lookupKV c.store k with
  | none =>
    rw [getValid_absent now c k hsl]
    exact Inv_purge c k h
  | some meta =>
    by_cases hx : isExpired now meta = true
    · rw [getValid_expired now c k meta hsl hx]
      exact Inv_purge c k h
    · simp only [Bool.not_eq_true] at hx
      rw [getValid_live now c k meta hsl hx]
      exact Inv_keepToken c k meta (meta.value ++ v) hsl h

theorem Inv_prepend (now : Int) (c : Cache) (k v : String) (h : Inv c) :
    Inv (prepend now c k v).2 := by
  unfold prepend
  cases hsl : lookupKV c.store k with
  | none =>
    rw [getValid_absent now c k hsl]
    exact Inv_purge c k h
  | some meta =>
    by_cases hx : isExpired now meta = true
    · rw [getValid_expired now c k meta hsl hx]
      exact Inv_purge c k h
    · simp only [Bool.not_eq_true] at hx
      rw [getValid_live now c k meta hsl hx]
      exact Inv_keepToken c k meta (v ++ meta.value) hsl h

theorem Inv_delete (now : Int) (c : Cache) (k : String) (h : Inv c) :
    Inv (delete now c k).2 := by
  unfold delete
  by_cases hsl : (lookupKV c.store k).isSome
  · simp only [if_pos hsl]
    have hg := Inv_getValid now c k h
    cases hgv : getValid now c k with
    | mk m c1 =>
      rw [hgv] at hg
      cases m with
      | none => simpa using hg
      | some meta => simpa using Inv_purge c1 k hg
  · simpa [hsl] using h

theorem Inv_incr (now : Int) (c : Cache) (k ds : String) (h : Inv c) :
    Inv (incr now c k ds).2 := by
  cases hsl : lookupKV c.store k with
  | none =>
    rw [incr_notfound now c k ds _ (getValid_absent now c k hsl)]
    exact Inv_purge c k h
  | some meta =>
    by_cases hx : isExpired now meta = true
    · rw [incr_notfound now c k ds _ (getValid_expired now c k meta hsl hx)]
      exact Inv_purge c k h
    · simp only [Bool.not_eq_true] at hx
      have hgv := getValid_live now c k meta hsl hx
      rcases hv : parsePyInt meta.value with _ | old
      · rw [incr_err now c k ds meta c hgv (Or.inl hv)]
        exact h
      · rcases hd : parsePyInt ds with _ | d
        · rw [incr_err now c k ds meta c hgv (Or.inr hd)]
          exact h
        · rw [incr_found now c k ds meta c old d hgv hv hd]
          exact Inv_set now c k _ meta.flags _ h

theorem Inv_decr (now : Int) (c : Cache) (k ds : String) (h : Inv c) :
    Inv (decr now c k ds).2 := by
  cases hsl : lookupKV c.store k with
  | none =>
    rw [decr_notfound now c k ds _ (getValid_absent now c k hsl)]
    exact Inv_purge c k h
  | some meta =>
    by_cases hx : isExpired now meta = true
    · rw [decr_notfound now c k ds _ (getValid_expired now c k meta hsl hx)]
      exact Inv_purge c k h
    · simp only [Bool.not_eq_true] at hx
      have hgv := getValid_live now c k meta hsl hx
      rcases hv : parsePyInt meta.value with _ | old
      · rw [decr_err now c k ds meta c hgv (Or.inl hv)]
        exact h
      · rcases hd : parsePyInt ds with _ | d
        · rw [decr_err now c k ds meta c hgv (Or.inr hd)]
          exact h
        · rw [decr_found now c k ds meta c old d hgv hv hd]
          exact Inv_set now c k _ meta.flags _ h

theorem Inv_cas (now : Int) (c : Cache) (k v : String) (tok f e : Int) (h : Inv c) :
    Inv (cas now c k v tok f e).2 := by
  unfold cas
  have hg := Inv_getValid now c k h
  cases hgv : getValid now c k with
  | mk m c1 =>
    rw [hgv] at hg
    cases m with
    | none => simpa using hg
    | some meta =>
      by_cases ht : meta.casToken ≠ tok
      · simpa [ht] using hg
      · simpa [ht] using Inv_set now c1 k v f e hg

/-- C7: `flushAll` never fails: it returns `OK` and empties both the Store and
the Version Counter; afterwards `get` on any key reports not-found, and the
next `set` on any key issues CAS token exactly 1. -/
theorem C7_flush_all_clears (c : Cache) (now now2 : Int) (k k2 v : String) (f e : Int) :
    flushAll c = ("OK", emptyCache) ∧
    emptyCache.store = [] ∧ emptyCache.casVersions = [] ∧
    get now (flushAll c).2 k = (none, emptyCache) ∧
    (lookupKV (set now2 (flushAll c).2 k2 v f e).2.store k2).map Entry.casToken = some 1 ∧
    lookupKV (set now2 (flushAll c).2 k2 v f e).2.casVersions k2 = some 1 := by
  refine ⟨rfl, rfl, rfl, rfl, ?_, ?_⟩ <;>
    simp [flushAll, set_eq, lookupKV_insertKV, emptyCache, lookupKV]

/-- C3: after `set(k, v1); set(k, v2)`, `get(k)` returns `v2` (last write
wins), the second token is exactly one more than the first (in particular
strictly greater), and in general every token issuance strictly increases the
per-key counter. -/
theorem C3_last_write_wins (now : Int) (c : Cache) (k v1 v2 : String) (f1 f2 e1 e2 : Int) :
    (get now (set now (set now c k v1 f1 e1).2 k v2 f2 e2).2 k).1 = some v2 ∧
    (lookupKV (set now c k v1 f1 e1).2.store k).map Entry.casToken =
      some ((lookupKV c.casVersions k).getD 0 + 1) ∧
    (lookupKV (set now (set now c k v1 f1 e1).2 k v2 f2 e2).2.store k).map Entry.casToken =
      some ((lookupKV c.casVersions k).getD 0 + 1 + 1) ∧
    (lookupKV c.casVersions k).getD 0 + 1 < (lookupKV c.casVersions k).getD 0 + 1 + 1 ∧
    (∀ (c0 : Cache) (k0 : String),
      (nextCasToken c0 k0).1 = (lookupKV c0.casVersions k0).getD 0 + 1 ∧
      (lookupKV c0.casVersions k0).getD 0 < (nextCasToken c0 k0).1) := by
  have hcv1 : lookupKV (set now c k v1 f1 e1).2.casVersions k
      = some ((lookupKV c.casVersions k).getD 0 + 1) := by
    simp [set_eq, lookupKV_insertKV]
  have hs2 : lookupKV (set now (set now c k v1 f1 e1).2 k v2 f2 e2).2.store k
      = some ⟨v2, f2, if e2 > 0 then now + e2 else 0,
          (lookupKV c.casVersions k).getD 0 + 1 + 1⟩ := by
    rw [set_eq now (set now c k v1 f1 e1).2 k v2 f2 e2]
    simp [lookupKV_insertKV, hcv1]
  refine ⟨?_, ?_, ?_, by omega, ?_⟩
  · rw [get_some now _ k _ _
      (getValid_live now _ k _ hs2
        (isExpired_fresh now e2 v2 f2 ((lookupKV c.casVersions k).getD 0 + 1 + 1)))]
  · simp [set_eq, lookupKV_insertKV]
  · rw [hs2]; rfl
  · intro c0 k0
    exact ⟨rfl, by have : (nextCasToken c0 k0).1 = (lookupKV c0.casVersions k0).getD 0 + 1 := rfl
                   omega⟩

/-- C7 witness: the flush of a one-key engine, followed by a get and a set. -/
theorem C7_witness :
    flushAll (set 0 emptyCache "k" "a" 0 0).2 = ("OK", emptyCache) ∧
    emptyCache.store = [] ∧ emptyCache.casVersions = [] ∧
    get 0 (flushAll (set 0 emptyCache "k" "a" 0 0).2).2 "k" = (none, emptyCache) ∧
    (lookupKV (set 0 (flushAll (set 0 emptyCache "k" "a" 0 0).2).2 "k" "b" 0 0).2.store
        "k").map Entry.casToken = some 1 ∧
    lookupKV (set 0 (flushAll (set 0 emptyCache "k" "a" 0 0).2).2 "k" "b" 0 0).2.casVersions
      "k" = some 1 :=
  C7_flush_all_clears (set 0 emptyCache "k" "a" 0 0).2 0 0 "k" "k" "b" 0 0

/-- C3 witness: two successive sets of `a` then `b` on a fresh key. -/
theorem C3_witness :
    (get 0 (set 0 (set 0 emptyCache "k" "a" 0 0).2 "k" "b" 0 0).2 "k").1 = some "b" ∧
    (lookupKV (set 0 emptyCache "k" "a" 0 0).2.store "k").map Entry.casToken =
      some ((lookupKV emptyCache.casVersions "k").getD 0 + 1) ∧
    (lookupKV (set 0 (set 0 emptyCache "k" "a" 0 0).2 "k" "b" 0 0).2.store "k").map
        Entry.casToken =
      some ((lookupKV emptyCache.casVersions "k").getD 0 + 1 + 1) ∧
    (lookupKV emptyCache.casVersions "k").getD 0 + 1 <
      (lookupKV emptyCache.casVersions "k").getD 0 + 1 + 1 ∧
    (∀ (c0 : Cache) (k0 : String),
      (nextCasToken c0 k0).1 = (lookupKV c0.casVersions k0).getD 0 + 1 ∧
      (lookupKV c0.casVersions k0).getD 0 < (nextCasToken c0 k0).1) :=
  C3_last_write_wins 0 emptyCache "k" "a" "b" 0 0 0 0

/-- C6: on a live key whose stored value does not parse as an integer, `incr`
and `decr` answer a client-error distinct from the not-found result and leave
the engine state completely unchanged. -/
theorem C6_incr_decr_client_error (now : Int) (c : Cache) (k ds : String) (en : Entry)
    (hs : lookupKV c.store k = some en) (hl : isExpired now en = false)
    (hp : parsePyInt en.value = none) :
    incr now c k ds = ("CLIENT_ERROR cannot increment", c) ∧
    decr now c k ds = ("CLIENT_ERROR cannot decrement", c) ∧
    ("CLIENT_ERROR cannot increment" : String) ≠ "NOT_FOUND" ∧
    ("CLIENT_ERROR cannot decrement" : String) ≠ "NOT_FOUND" := by
  have hgv := getValid_live now c k en hs hl
  exact ⟨incr_err now c k ds en c hgv (Or.inl hp),
         decr_err now c k ds en c hgv (Or.inl hp),
         by decide, by decide⟩

/-- C6 witness: a key holding the non-numeric value `abc`. -/
theorem C6_witness :
    incr 0 (set 0 emptyCache "k" "abc" 0 0).2 "k" "1" =
      ("CLIENT_ERROR cannot increment", (set 0 emptyCache "k" "abc" 0 0).2) ∧
    decr 0 (set 0 emptyCache "k" "abc" 0 0).2 "k" "1" =
      ("CLIENT_ERROR cannot decrement", (set 0 emptyCache "k" "abc" 0 0).2) ∧
    ("CLIENT_ERROR cannot increment" : String) ≠ "NOT_FOUND" ∧
    ("CLIENT_ERROR cannot decrement" : String) ≠ "NOT_FOUND" :=
  C6_incr_decr_client_error 0 (set 0 emptyCache "k" "abc" 0 0).2 "k" "1"
    ⟨"abc", 0, 0, 1⟩ (by decide) (by decide) (by decide)

/-- C5: on a live key with integer value `old` and non-negative delta `d`,
`incr` stores the decimal string of `old + d` and `decr` that of
`max 0 (old - d)`, both through the `set` path with the remaining TTL
(`expireAt - now`), so a never-expiring entry stays never-expiring and the
CAS token always advances to `casToken + 1`. -/
theorem C5_incr_decr_numeric (now : Int) (c : Cache) (k ds : String) (d old : Int)
    (en : Entry) (hinv : Inv c)
    (hs : lookupKV c.store k = some en) (hl : isExpired now en = false)
    (hv : parsePyInt en.value = some old) (hd : parsePyInt ds = some d)
    (_hd0 : 0 ≤ d) :
    incr now c k ds = set now c k (toString (old + d)) en.flags (en.expireAt - now) ∧
    decr now c k ds =
      set now c k (toString (max 0 (old - d))) en.flags (en.expireAt - now) ∧
    (incr now c k ds).1 = "STORED" ∧ (decr now c k ds).1 = "STORED" ∧
    lookupKV (incr now c k ds).2.store k =
      some ⟨toString (old + d), en.flags,
        if now < en.expireAt then en.expireAt else 0, en.casToken + 1⟩ ∧
    lookupKV (decr now c k ds).2.store k =
      some ⟨toString (max 0 (old - d)), en.flags,
        if now < en.expireAt then en.expireAt else 0, en.casToken + 1⟩ ∧
    (en.expireAt = 0 →
      (lookupKV (incr now c k ds).2.store k).map Entry.expireAt = some 0) ∧
    en.casToken < en.casToken + 1 := by
  have hgv := getValid_live now c k en hs hl
  have hi := incr_found now c k ds en c old d hgv hv hd
  have hdc := decr_found now c k ds en c old d hgv hv hd
  have hcv : lookupKV c.casVersions k = some en.casToken := (hinv.1 k en hs)
  have hexp : (if en.expireAt - now > 0 then now + (en.expireAt - now) else 0)
      = if now < en.expireAt then en.expireAt else 0 := by
    split_ifs <;> omega
  have hstore : ∀ v2 : String,
      lookupKV (set now c k v2 en.flags (en.expireAt - now)).2.store k =
        some ⟨v2, en.flags, if now < en.expireAt then en.expireAt else 0,
          en.casToken + 1⟩ := by
    intro v2
    rw [set_eq]
    simp [lookupKV_insertKV, hcv, hexp]
  refine ⟨hi, hdc, by rw [hi, set_eq], by rw [hdc, set_eq], ?_, ?_, ?_, by omega⟩
  · rw [hi]; exact hstore (toString (old + d))
  · rw [hdc]; exact hstore (toString (max 0 (old - d)))
  · intro h0
    rw [hi, hstore (toString (old + d))]
    simp [h0]

/-- C5 witness: a never-expiring key holding `10`, incremented and
decremented by 5. -/
theorem C5_witness :
    incr 0 (set 0 emptyCache "k" "10" 0 0).2 "k" "5" =
      set 0 (set 0 emptyCache "k" "10" 0 0).2 "k" (toString ((10 : Int) + 5)) 0
        ((0 : Int) - 0) ∧
    decr 0 (set 0 emptyCache "k" "10" 0 0).2 "k" "5" =
      set 0 (set 0 emptyCache "k" "10" 0 0).2 "k" (toString (max 0 ((10 : Int) - 5))) 0
        ((0 : Int) - 0) ∧
    (incr 0 (set 0 emptyCache "k" "10" 0 0).2 "k" "5").1 = "STORED" ∧
    (decr 0 (set 0 emptyCache "k" "10" 0 0).2 "k" "5").1 = "STORED" ∧
    lookupKV (incr 0 (set 0 emptyCache "k" "10" 0 0).2 "k" "5").2.store "k" =
      some ⟨toString ((10 : Int) + 5), 0, if (0 : Int) < 0 then (0 : Int) else 0, 1 + 1⟩ ∧
    lookupKV (decr 0 (set 0 emptyCache "k" "10" 0 0).2 "k" "5").2.store "k" =
      some ⟨toString (max 0 ((10 : Int) - 5)), 0,
        if (0 : Int) < 0 then (0 : Int) else 0, 1 + 1⟩ ∧
    ((0 : Int) = 0 →
      (lookupKV (incr 0 (set 0 emptyCache "k" "10" 0 0).2 "k" "5").2.store "k").map
        Entry.expireAt = some 0) ∧
    (1 : Int) < 1 + 1 :=
  C5_incr_decr_numeric 0 (set 0 emptyCache "k" "10" 0 0).2 "k" "5" 5 10
    ⟨"10", 0, 0, 1⟩ (Inv_set 0 emptyCache "k" "10" 0 0 Inv_empty)
    (by decide) (by decide) (by decide) (by decide) (by decide)

/-- C9: the version-counter invariant — every store key has a counter entry
equal to its CAS token, with value at least 1 — holds of the empty engine and
is preserved by every engine operation. -/
theorem C9_store_counter_invariant (now : Int) (c : Cache) (k v ds : String)
    (f e tok : Int) (ks : List String) (hinv : Inv c) :
    (∀ k2 e2, lookupKV c.store k2 = some e2 →
      lookupKV c.casVersions k2 = some e2.casToken ∧ 1 ≤ e2.casToken) ∧
    Inv emptyCache ∧
    Inv (set now c k v f e).2 ∧ Inv (get now c k).2 ∧ Inv (gets now c k).2 ∧
    Inv (getMulti now c ks).2 ∧ Inv (add now c k v f e).2 ∧
    Inv (replace now c k v f e).2 ∧ Inv (append now c k v).2 ∧
    Inv (prepend now c k v).2 ∧ Inv (delete now c k).2 ∧
    Inv (incr now c k ds).2 ∧ Inv (decr now c k ds).2 ∧
    Inv (cas now c k v tok f e).2 ∧ Inv (flushAll c).2 :=
  ⟨fun k2 e2 hl => ⟨hinv.1 k2 e2 hl, hinv.2 k2 _ (hinv.1 k2 e2 hl)⟩,
    Inv_empty, Inv_set now c k v f e hinv, Inv_get now c k hinv, Inv_gets now c k hinv,
    Inv_getMulti now ks c hinv, Inv_add now c k v f e hinv,
    Inv_replace now c k v f e hinv, Inv_append now c k v hinv,
    Inv_prepend now c k v hinv, Inv_delete now c k hinv,
    Inv_incr now c k ds hinv, Inv_decr now c k ds hinv,
    Inv_cas now c k v tok f e hinv, Inv_empty⟩

/-- C9 witness: the invariant instance at the empty engine. -/
theorem C9_witness :
    (∀ k2 e2, lookupKV emptyCache.store k2 = some e2 →
      lookupKV emptyCache.casVersions k2 = some e2.casToken ∧ 1 ≤ e2.casToken) ∧
    Inv emptyCache ∧
    Inv (set 0 emptyCache "k" "v" 0 0).2 ∧ Inv (get 0 emptyCache "k").2 ∧
    Inv (gets 0 emptyCache "k").2 ∧ Inv (getMulti 0 emptyCache ["k"]).2 ∧
    Inv (add 0 emptyCache "k" "v" 0 0).2 ∧ Inv (replace 0 emptyCache "k" "v" 0 0).2 ∧
    Inv (append 0 emptyCache "k" "v").2 ∧ Inv (prepend 0 emptyCache "k" "v").2 ∧
    Inv (delete 0 emptyCache "k").2 ∧ Inv (incr 0 emptyCache "k" "1").2 ∧
    Inv (decr 0 emptyCache "k" "1").2 ∧ Inv (cas 0 emptyCache "k" "v" 1 0 0).2 ∧
    Inv (flushAll emptyCache).2 :=
  C9_store_counter_invariant 0 emptyCache "k" "v" "1" 0 0 1 ["k"] Inv_empty

/-- C2: `cas` answers not-found on an absent or expired key; on a live key a
token mismatch answers `EXISTS` leaving the state completely unchanged; a
matching token behaves exactly as `set` (issuing a fresh token) and answers
`STORED`, so a second `cas` with the now-stale token answers `EXISTS` and the
value remains the one the first `cas` stored. -/
theorem C2_cas_semantics (now now2 : Int) (c : Cache) (k v v3 : String)
    (tok f e f3 e3 : Int) (en : Entry) :
    (lookupKV c.store k = none → (cas now c k v tok f e).1 = "NOT_FOUND") ∧
    (lookupKV c.store k = some en → isExpired now en = true →
      (cas now c k v tok f e).1 = "NOT_FOUND") ∧
    (lookupKV c.store k = some en → isExpired now en = false → en.casToken ≠ tok →
      cas now c k v tok f e = ("EXISTS", c)) ∧
    (lookupKV c.store k = some en → isExpired now en = false → en.casToken = tok →
      cas now c k v tok f e = set now c k v f e ∧
      (cas now c k v tok f e).1 = "STORED") ∧
    (Inv c → lookupKV c.store k = some en → isExpired now en = false →
      en.casToken = tok →
      isExpired now2 (⟨v, f, if e > 0 then now + e else 0, tok + 1⟩ : Entry) = false →
      cas now2 (cas now c k v tok f e).2 k v3 tok f3 e3 =
        ("EXISTS", (cas now c k v tok f e).2) ∧
      (get now2 (cas now c k v tok f e).2 k).1 = some v) := by
  refine ⟨?_, ?_, ?_, ?_, ?_⟩
  · intro hs
    rw [cas_notfound now c k v tok f e _ (getValid_absent now c k hs)]
  · intro hs hx
    rw [cas_notfound now c k v tok f e _ (getValid_expired now c k en hs hx)]
  · intro hs hl hne
    exact cas_mismatch now c k v tok f e en c (getValid_live now c k en hs hl) hne
  · intro hs hl heq
    have h1 := cas_match now c k v tok f e en c (getValid_live now c k en hs hl) heq
    exact ⟨h1, by rw [h1, set_eq]⟩
  · intro hinv hs hl heq hlive2
    have h1 := cas_match now c k v tok f e en c (getValid_live now c k en hs hl) heq
    have hcv : lookupKV c.casVersions k = some tok := by
      have := hinv.1 k en hs
      rwa [heq] at this
    have hstate : (cas now c k v tok f e).2 =
        ⟨insertKV c.store k ⟨v, f, if e > 0 then now + e else 0, tok + 1⟩,
          insertKV c.casVersions k (tok + 1)⟩ := by
      rw [h1, set_eq]
      simp [hcv]
    have hs2 : lookupKV (cas now c k v tok f e).2.store k =
        some ⟨v, f, if e > 0 then now + e else 0, tok + 1⟩ := by
      rw [hstate]
      simp [lookupKV_insertKV]
    have hgv2 := getValid_live now2 _ k _ hs2 hlive2
    constructor
    · exact cas_mismatch now2 _ k v3 tok f3 e3 _ _ hgv2 (by show tok + 1 ≠ tok; omega)
    · rw [get_some now2 _ k _ _ hgv2]

/-- C2 witness: a key set to `a` (token 1); `cas` with a wrong token answers
`EXISTS`, with the right token stores `b`, and a replay of token 1 answers
`EXISTS` with the value still `b`. -/
theorem C2_witness :
    (cas 0 emptyCache "k" "b" 1 0 0).1 = "NOT_FOUND" ∧
    cas 0 (set 0 emptyCache "k" "a" 0 0).2 "k" "b" 2 0 0 =
      ("EXISTS", (set 0 emptyCache "k" "a" 0 0).2) ∧
    cas 0 (set 0 emptyCache "k" "a" 0 0).2 "k" "b" 1 0 0 =
      set 0 (set 0 emptyCache "k" "a" 0 0).2 "k" "b" 0 0 ∧
    cas 0 (cas 0 (set 0 emptyCache "k" "a" 0 0).2 "k" "b" 1 0 0).2 "k" "c" 1 0 0 =
      ("EXISTS", (cas 0 (set 0 emptyCache "k" "a" 0 0).2 "k" "b" 1 0 0).2) ∧
    (get 0 (cas 0 (set 0 emptyCache "k" "a" 0 0).2 "k" "b" 1 0 0).2 "k").1 = some "b" := by
  refine ⟨?_, ?_, ?_, ?_, ?_⟩
  · exact (C2_cas_semantics 0 0 emptyCache "k" "b" "c" 1 0 0 0 0
      ⟨"a", 0, 0, 1⟩).1 (by decide)
  · exact (C2_cas_semantics 0 0 (set 0 emptyCache "k" "a" 0 0).2 "k" "b" "c" 2 0 0 0 0
      ⟨"a", 0, 0, 1⟩).2.2.1 (by decide) (by decide) (by decide)
  · exact ((C2_cas_semantics 0 0 (set 0 emptyCache "k" "a" 0 0).2 "k" "b" "c" 1 0 0 0 0
      ⟨"a", 0, 0, 1⟩).2.2.2.1 (by decide) (by decide) (by decide)).1
  · exact ((C2_cas_semantics 0 0 (set 0 emptyCache "k" "a" 0 0).2 "k" "b" "c" 1 0 0 0 0
      ⟨"a", 0, 0, 1⟩).2.2.2.2 (Inv_set 0 emptyCache "k" "a" 0 0 Inv_empty)
      (by decide) (by decide) (by decide) (by decide)).1
  · exact ((C2_cas_semantics 0 0 (set 0 emptyCache "k" "a" 0 0).2 "k" "b" "c" 1 0 0 0 0
      ⟨"a", 0, 0, 1⟩).2.2.2.2 (Inv_set 0 emptyCache "k" "a" 0 0 Inv_empty)
      (by decide) (by decide) (by decide) (by decide)).2

/-- C10: `set` maps every non-positive ttl to the never-expires sentinel 0,
while `add` with a negative ttl (on a key with no stored entry) stores an
`expireAt` already in the past, so the entry is logically absent on the very
next access. -/
theorem C10_ttl_sign_asymmetry (now : Int) (c : Cache) (k v : String) (f e : Int)
    (he : e < 0) (hne : now + e ≠ 0) :
    (∀ e2 ≤ 0, (lookupKV (set now c k v f e2).2.store k).map Entry.expireAt = some 0) ∧
    (lookupKV c.store k = none →
      (lookupKV (add now c k v f e).2.store k).map Entry.expireAt = some (now + e) ∧
      now + e < now ∧
      (∀ now2, now ≤ now2 → (get now2 (add now c k v f e).2 k).1 = none)) := by
  constructor
  · intro e2 he2
    have h2 : ¬ (e2 > 0) := by omega
    simp [set_eq, lookupKV_insertKV, h2]
  · intro hs
    have hadd := add_missing now c k v f e _ (getValid_absent now c k hs)
    have hen : e ≠ 0 := by omega
    have hs2 : lookupKV (add now c k v f e).2.store k =
        some ⟨v, f, now + e,
          (lookupKV (purge c k).casVersions k).getD 0 + 1⟩ := by
      rw [hadd]
      simp [lookupKV_insertKV, hen]
    refine ⟨by rw [hs2]; rfl, by omega, ?_⟩
    intro now2 hnow2
    have hx : isExpired now2 (⟨v, f, now + e,
        (lookupKV (purge c k).casVersions k).getD 0 + 1⟩ : Entry) = true := by
      simp [isExpired]
      exact ⟨hne, by omega⟩
    rw [get_none now2 _ k _ (getValid_expired now2 _ k _ hs2 hx)]

/-- C10 witness: at time 100 with ttl -5, `set` stores the never sentinel
while `add` stores `expireAt = 95`, already expired at the next access. -/
theorem C10_witness :
    (∀ e2 ≤ (0 : Int),
      (lookupKV (set 100 emptyCache "k" "v" 0 e2).2.store "k").map Entry.expireAt =
        some 0) ∧
    (lookupKV emptyCache.store "k" = none →
      (lookupKV (add 100 emptyCache "k" "v" 0 (-5)).2.store "k").map Entry.expireAt =
        some (100 + -5) ∧
      (100 : Int) + -5 < 100 ∧
      (∀ now2, (100 : Int) ≤ now2 →
        (get now2 (add 100 emptyCache "k" "v" 0 (-5)).2 "k").1 = none)) :=
  C10_ttl_sign_asymmetry 100 emptyCache "k" "v" 0 (-5) (by decide) (by decide)

/-- C4 counterexample: on an expired key (`a` stored at time 10 with ttl 5,
accessed at 20) `append` and `prepend` do return `NOT_STORED` but change the
state: the lazy-expiry removal purges the entry and its version counter. -/
theorem C4_counterexample :
    lookupKV (set 10 emptyCache "k" "a" 0 5).2.store "k" = some ⟨"a", 0, 15, 1⟩ ∧
    isExpired 20 ⟨"a", 0, 15, 1⟩ = true ∧
    (append 20 (set 10 emptyCache "k" "a" 0 5).2 "k" "b").1 = "NOT_STORED" ∧
    (append 20 (set 10 emptyCache "k" "a" 0 5).2 "k" "b").2 ≠
      (set 10 emptyCache "k" "a" 0 5).2 ∧
    (prepend 20 (set 10 emptyCache "k" "a" 0 5).2 "k" "b").2 ≠
      (set 10 emptyCache "k" "a" 0 5).2 := by decide

/-- C4 amended: on a live key `append`/`prepend` concatenate and keep flags,
expiry, CAS token and the version counter unchanged, answering `STORED`; on a
key absent from both dicts they answer `NOT_STORED` with no state change; on
an expired key they answer `NOT_STORED` after lazily purging the entry and
its version counter. -/
theorem C4_append_prepend_frame (now : Int) (c : Cache) (k v : String) (en : Entry) :
    (lookupKV c.store k = some en → isExpired now en = false →
      append now c k v = ("STORED",
        ⟨insertKV c.store k ⟨en.value ++ v, en.flags, en.expireAt, en.casToken⟩,
          c.casVersions⟩) ∧
      prepend now c k v = ("STORED",
        ⟨insertKV c.store k ⟨v ++ en.value, en.flags, en.expireAt, en.casToken⟩,
          c.casVersions⟩) ∧
      lookupKV (append now c k v).2.store k =
        some ⟨en.value ++ v, en.flags, en.expireAt, en.casToken⟩ ∧
      lookupKV (prepend now c k v).2.store k =
        some ⟨v ++ en.value, en.flags, en.expireAt, en.casToken⟩ ∧
      (append now c k v).2.casVersions = c.casVersions ∧
      (prepend now c k v).2.casVersions = c.casVersions ∧
      (∀ k2, k2 ≠ k → lookupKV (append now c k v).2.store k2 = lookupKV c.store k2)) ∧
    (lookupKV c.store k = none → lookupKV c.casVersions k = none →
      append now c k v = ("NOT_STORED", c) ∧
      prepend now c k v = ("NOT_STORED", c)) ∧
    (lookupKV c.store k = some en → isExpired now en = true →
      append now c k v = ("NOT_STORED", purge c k) ∧
      prepend now c k v = ("NOT_STORED", purge c k)) := by
  refine ⟨?_, ?_, ?_⟩
  · intro hs hl
    have hgv := getValid_live now c k en hs hl
    have ha := append_found now c k v en c hgv
    have hp := prepend_found now c k v en c hgv
    refine ⟨ha, hp, ?_, ?_, by rw [ha], by rw [hp], ?_⟩
    · rw [ha]; simp [lookupKV_insertKV]
    · rw [hp]; simp [lookupKV_insertKV]
    · intro k2 hk2
      rw [ha]
      simp [lookupKV_insertKV, hk2]
  · intro hs hv
    have hgv := getValid_absent now c k hs
    rw [purge_of_absent c k hs hv] at hgv
    exact ⟨append_missing now c k v c hgv, prepend_missing now c k v c hgv⟩
  · intro hs hx
    have hgv := getValid_expired now c k en hs hx
    exact ⟨append_missing now c k v _ hgv, prepend_missing now c k v _ hgv⟩

/-- C4 witness: `append` of `b` to a live key holding `a` with token 1. -/
theorem C4_witness :
    append 0 (set 0 emptyCache "k" "a" 0 0).2 "k" "b" = ("STORED",
      ⟨insertKV (set 0 emptyCache "k" "a" 0 0).2.store "k" ⟨"a" ++ "b", 0, 0, 1⟩,
        (set 0 emptyCache "k" "a" 0 0).2.casVersions⟩) ∧
    prepend 0 (set 0 emptyCache "k" "a" 0 0).2 "k" "b" = ("STORED",
      ⟨insertKV (set 0 emptyCache "k" "a" 0 0).2.store "k" ⟨"b" ++ "a", 0, 0, 1⟩,
        (set 0 emptyCache "k" "a" 0 0).2.casVersions⟩) ∧
    lookupKV (append 0 (set 0 emptyCache "k" "a" 0 0).2 "k" "b").2.store "k" =
      some ⟨"a" ++ "b", 0, 0, 1⟩ ∧
    lookupKV (prepend 0 (set 0 emptyCache "k" "a" 0 0).2 "k" "b").2.store "k" =
      some ⟨"b" ++ "a", 0, 0, 1⟩ ∧
    (append 0 (set 0 emptyCache "k" "a" 0 0).2 "k" "b").2.casVersions =
      (set 0 emptyCache "k" "a" 0 0).2.casVersions ∧
    (prepend 0 (set 0 emptyCache "k" "a" 0 0).2 "k" "b").2.casVersions =
      (set 0 emptyCache "k" "a" 0 0).2.casVersions ∧
    (∀ k2, k2 ≠ "k" →
      lookupKV (append 0 (set 0 emptyCache "k" "a" 0 0).2 "k" "b").2.store k2 =
        lookupKV (set 0 emptyCache "k" "a" 0 0).2.store k2) :=
  (C4_append_prepend_frame 0 (set 0 emptyCache "k" "a" 0 0).2 "k" "b"
    ⟨"a", 0, 0, 1⟩).1 (by decide) (by decide)

/-- C1 counterexample: after `set k v` at time 10 with ttl 5 the entry is
expired at time 20, yet `set` at 20 does not behave as `remove expired entry
and version counter first`: on the purged state it would issue token 1, but
it issues token 2, so the two results differ. -/
theorem C1_counterexample :
    lookupKV (set 10 emptyCache "k" "v" 0 5).2.store "k" = some ⟨"v", 0, 15, 1⟩ ∧
    isExpired 20 ⟨"v", 0, 15, 1⟩ = true ∧
    set 20 (set 10 emptyCache "k" "v" 0 5).2 "k" "v2" 0 0 ≠
      set 20 (purge (set 10 emptyCache "k" "v" 0 5).2 "k") "k" "v2" 0 0 ∧
    lookupKV (set 20 (set 10 emptyCache "k" "v" 0 5).2 "k" "v2" 0 0).2.casVersions "k" =
      some 2 ∧
    lookupKV
        (set 20 (purge (set 10 emptyCache "k" "v" 0 5).2 "k") "k" "v2" 0 0).2.casVersions
        "k" = some 1 := by decide

/-- C1 amended: every engine operation except `set` resolves an expired key
through the expiry-aware lookup: it removes the entry and its version counter
and then behaves exactly as on the purged state (the reads also report
not-found and leave the key purged); `set` alone skips the lookup, overwrites
unconditionally and advances the surviving version counter instead of
resetting it. -/
theorem C1_lazy_expiry_except_set (now : Int) (c : Cache) (k v ds : String)
    (f e tok : Int) (ks : List String) (en : Entry)
    (hs : lookupKV c.store k = some en) (hex : isExpired now en = true) :
    get now c k = (none, purge c k) ∧
    gets now c k = (none, purge c k) ∧
    get now c k = get now (purge c k) k ∧
    gets now c k = gets now (purge c k) k ∧
    getMulti now c (k :: ks) = getMulti now (purge c k) (k :: ks) ∧
    add now c k v f e = add now (purge c k) k v f e ∧
    replace now c k v f e = replace now (purge c k) k v f e ∧
    append now c k v = append now (purge c k) k v ∧
    prepend now c k v = prepend now (purge c k) k v ∧
    delete now c k = delete now (purge c k) k ∧
    incr now c k ds = incr now (purge c k) k ds ∧
    decr now c k ds = decr now (purge c k) k ds ∧
    cas now c k v tok f e = cas now (purge c k) k v tok f e ∧
    flushAll c = flushAll (purge c k) ∧
    lookupKV (set now c k v f e).2.casVersions k =
      some ((lookupKV c.casVersions k).getD 0 + 1) := by
  have hgv := getValid_expired now c k en hs hex
  have hgp := getValid_purge now c k
  refine ⟨?_, ?_, ?_, ?_, ?_, ?_, ?_, ?_, ?_, ?_, ?_, ?_, ?_, rfl, ?_⟩
  · rw [get_none now c k _ hgv]
  · rw [gets_none now c k _ hgv]
  · rw [get_none now c k _ hgv, get_none now (purge c k) k _ hgp]
  · rw [gets_none now c k _ hgv, gets_none now (purge c k) k _ hgp]
  · rw [getMulti_cons_none now c k ks _ hgv, getMulti_cons_none now (purge c k) k ks _ hgp]
  · rw [add_missing now c k v f e _ hgv, add_missing now (purge c k) k v f e _ hgp]
  · rw [replace_missing now c k v f e _ hgv, replace_missing now (purge c k) k v f e _ hgp]
  · rw [append_missing now c k v _ hgv, append_missing now (purge c k) k v _ hgp]
  · rw [prepend_missing now c k v _ hgv, prepend_missing now (purge c k) k v _ hgp]
  · rw [delete_expired2 now c k en hs hex,
      delete_not_mem now (purge c k) k (by simp [purge, lookupKV_eraseKV])]
  · rw [incr_notfound now c k ds _ hgv, incr_notfound now (purge c k) k ds _ hgp]
  · rw [decr_notfound now c k ds _ hgv, decr_notfound now (purge c k) k ds _ hgp]
  · rw [cas_notfound now c k v tok f e _ hgv, cas_notfound now (purge c k) k v tok f e _ hgp]
  · simp [set_eq, lookupKV_insertKV]

/-- C1 witness: the amended statement at the concrete expired entry of the
counterexample. -/
theorem C1_witness :
    get 20 (set 10 emptyCache "k" "v" 0 5).2 "k" =
      (none, purge (set 10 emptyCache "k" "v" 0 5).2 "k") ∧
    gets 20 (set 10 emptyCache "k" "v" 0 5).2 "k" =
      (none, purge (set 10 emptyCache "k" "v" 0 5).2 "k") ∧
    get 20 (set 10 emptyCache "k" "v" 0 5).2 "k" =
      get 20 (purge (set 10 emptyCache "k" "v" 0 5).2 "k") "k" ∧
    gets 20 (set 10 emptyCache "k" "v" 0 5).2 "k" =
      gets 20 (purge (set 10 emptyCache "k" "v" 0 5).2 "k") "k" ∧
    getMulti 20 (set 10 emptyCache "k" "v" 0 5).2 ["k", "x"] =
      getMulti 20 (purge (set 10 emptyCache "k" "v" 0 5).2 "k") ["k", "x"] ∧
    add 20 (set 10 emptyCache "k" "v" 0 5).2 "k" "v2" 0 0 =
      add 20 (purge (set 10 emptyCache "k" "v" 0 5).2 "k") "k" "v2" 0 0 ∧
    replace 20 (set 10 emptyCache "k" "v" 0 5).2 "k" "v2" 0 0 =
      replace 20 (purge (set 10 emptyCache "k" "v" 0 5).2 "k") "k" "v2" 0 0 ∧
    append 20 (set 10 emptyCache "k" "v" 0 5).2 "k" "v2" =
      append 20 (purge (set 10 emptyCache "k" "v" 0 5).2 "k") "k" "v2" ∧
    prepend 20 (set 10 emptyCache "k" "v" 0 5).2 "k" "v2" =
      prepend 20 (purge (set 10 emptyCache "k" "v" 0 5).2 "k") "k" "v2" ∧
    delete 20 (set 10 emptyCache "k" "v" 0 5).2 "k" =
      delete 20 (purge (set 10 emptyCache "k" "v" 0 5).2 "k") "k" ∧
    incr 20 (set 10 emptyCache "k" "v" 0 5).2 "k" "1" =
      incr 20 (purge (set 10 emptyCache "k" "v" 0 5).2 "k") "k" "1" ∧
    decr 20 (set 10 emptyCache "k" "v" 0 5).2 "k" "1" =
      decr 20 (purge (set 10 emptyCache "k" "v" 0 5).2 "k") "k" "1" ∧
    cas 20 (set 10 emptyCache "k" "v" 0 5).2 "k" "v2" 1 0 0 =
      cas 20 (purge (set 10 emptyCache "k" "v" 0 5).2 "k") "k" "v2" 1 0 0 ∧
    flushAll (set 10 emptyCache "k" "v" 0 5).2 =
      flushAll (purge (set 10 emptyCache "k" "v" 0 5).2 "k") ∧
    lookupKV (set 20 (set 10 emptyCache "k" "v" 0 5).2 "k" "v2" 0 0).2.casVersions "k" =
      some ((lookupKV (set 10 emptyCache "k" "v" 0 5).2.casVersions "k").getD 0 + 1) :=
  C1_lazy_expiry_except_set 20 (set 10 emptyCache "k" "v" 0 5).2 "k" "v2" "1"
    0 0 1 ["x"] ⟨"v", 0, 15, 1⟩ (by decide) (by decide)

end SimpleMemcached

namespace Servidor

open SimpleMemcached

/-- lowerChar models `str.lower()` on one ASCII character. -/
def lowerChar (ch : Char) : Char :=
  if 'A' ≤ ch ∧ ch ≤ 'Z' then Char.ofNat (ch.toNat + 32) else ch

/-- lowerAscii models `parts[0].lower()` for the ASCII command names the
handler compares against. -/
def lowerAscii (s : String) : String := ⟨s.data.map lowerChar⟩

/-- getLines models the `get` loop of `CacheTCPHandler.handle`: one `VALUE`
header line plus one value line per found key (the engine `get` lazily purges
expired entries as it goes), written in key order. -/
def getLines (now : Int) : Cache → List String → List String × Cache
  | c, [] => ([], c)
  | c, k :: ks =>
    match get now c k with
    | (some v, c1) =>
      let rest := getLines now c1 ks
      (("VALUE " ++ k ++ " 0 " ++ toString v.length) :: v :: rest.1, rest.2)
    | (none, c1) => getLines now c1 ks

/-- handleLine models one iteration of `CacheTCPHandler.handle` on an already
stripped and split request line. `payload` stands for the decoded
`nbytes + 2`-byte stream read with its terminator removed; the reply is the
written lines without terminators. A Python exception reaching the `except`
clause (short unpack, bad `int(...)`) is modelled as the single marker line
`SERVER_ERROR`; its message text is not modelled. -/
def handleLine (now : Int) (c : Cache) (parts : List String) (payload : String) :
    List String × Cache :=
  match parts with
  | [] => ([], c)
  | cmd0 :: args =>
    let cmd := lowerAscii cmd0
    if cmd = "get" then
      let r := getLines now c args
      (r.1 ++ ["END"], r.2)
    else if cmd = "gets" then
      match args with
      | [] => (["SERVER_ERROR"], c)
      | key :: _ =>
        match gets now c key with
        | (some (v, t), c1) =>
          (["VALUE " ++ key ++ " 0 " ++ toString v.length ++ " " ++ toString t,
            v, "END"], c1)
        | (none, c1) => (["END"], c1)
    else if cmd = "set" ∨ cmd = "add" ∨ cmd = "replace" then
      match args with
      | key :: fs :: es :: ns :: _ =>
        let noreply := parts.contains "noreply"
        match parsePyInt fs, parsePyInt es, parsePyInt ns with
        | some flags, some expt, some _ =>
          let r := if cmd = "set" then set now c key payload flags expt
            else if cmd = "add" then add now c key payload flags expt
            else replace now c key payload flags expt
          (if noreply then [] else [r.1], r.2)
        | _, _, _ => (["SERVER_ERROR"], c)
      | _ => (["SERVER_ERROR"], c)
    else if cmd = "append" ∨ cmd = "prepend" then
      if (cmd0 :: args).length < 5 then
        (["CLIENT_ERROR bad command line format"], c)
      else
        match args with
        | key :: _fs :: _es :: bl :: _ =>
          match parsePyInt bl with
          | some _ =>
            let r := if cmd = "append" then append now c key payload
              else prepend now c key payload
            ([r.1], r.2)
          | none => (["SERVER_ERROR"], c)
        | _ => (["SERVER_ERROR"], c)
    else if cmd = "cas" then
      match args with
      | key :: fs :: es :: ns :: toks :: _ =>
        let noreply := parts.contains "noreply"
        match parsePyInt fs, parsePyInt es, parsePyInt ns, parsePyInt toks with
        | some flags, some expt, some _, some tok =>
          let r := cas now c key payload tok flags expt
          (if noreply then [] else [r.1], r.2)
        | _, _, _, _ => (["SERVER_ERROR"], c)
      | _ => (["SERVER_ERROR"], c)
    else if cmd = "delete" then
      match args with
      | [] => (["SERVER_ERROR"], c)
      | key :: _ =>
        let noreply := parts.contains "noreply"
        let r := delete now c key
        (if noreply then [] else [r.1], r.2)
    else if cmd = "incr" ∨ cmd = "decr" then
      match args with
      | key :: dstr :: _ =>
        let r := if cmd = "incr" then incr now c key dstr else decr now c key dstr
        ([r.1], r.2)
      | _ => (["SERVER_ERROR"], c)
    else if cmd = "flush_all" then
      let noreply := parts.contains "noreply"
      let r := flushAll c
      (if noreply then [] else [r.1], r.2)
    else (["ERROR"], c)

/-- isClientErrorLine: a wire line counts as a client error when it starts
with the `CLIENT_ERROR` keyword. -/
def isClientErrorLine (s : String) : Bool :=
  decide (s.data.take 12 = "CLIENT_ERROR".data)

/-- C8 counterexample: a `set` line with a single argument raises inside the
handler and is answered by the `except` clause with a server-error line, not
a client-error line (only `append`/`prepend` short lines get one). -/
theorem C8_counterexample :
    handleLine 0 emptyCache ["set", "k"] "" = (["SERVER_ERROR"], emptyCache) ∧
    isClientErrorLine "SERVER_ERROR" = false ∧
    isClientErrorLine "CLIENT_ERROR bad command line format" = true := by decide

/-- C8 amended: a request line with too few arguments never reaches the
engine (the state is returned unchanged), but the reply is a client-error
line only for `append`/`prepend`; for `set`/`add`/`replace`/`cas`/`gets`/
`delete`/`incr`/`decr` the in-handler exception is answered as a
server-error line. -/
theorem C8_short_request_lines (now : Int) (c : Cache) (p : String)
    (args : List String) :
    (args.length < 4 →
      handleLine now c ("set" :: args) p = (["SERVER_ERROR"], c) ∧
      handleLine now c ("add" :: args) p = (["SERVER_ERROR"], c) ∧
      handleLine now c ("replace" :: args) p = (["SERVER_ERROR"], c) ∧
      handleLine now c ("append" :: args) p =
        (["CLIENT_ERROR bad command line format"], c) ∧
      handleLine now c ("prepend" :: args) p =
        (["CLIENT_ERROR bad command line format"], c)) ∧
    (args.length < 2 →
      handleLine now c ("incr" :: args) p = (["SERVER_ERROR"], c) ∧
      handleLine now c ("decr" :: args) p = (["SERVER_ERROR"], c)) ∧
    (args.length < 5 →
      handleLine now c ("cas" :: args) p = (["SERVER_ERROR"], c)) ∧
    handleLine now c ["gets"] p = (["SERVER_ERROR"], c) ∧
    handleLine now c ["delete"] p = (["SERVER_ERROR"], c) := by
  refine ⟨?_, ?_, ?_, rfl, rfl⟩
  · intro hlen
    rcases args with _ | ⟨a, _ | ⟨b, _ | ⟨d, _ | ⟨f, t⟩⟩⟩⟩
    · exact ⟨rfl, rfl, rfl, rfl, rfl⟩
    · exact ⟨rfl, rfl, rfl, rfl, rfl⟩
    · exact ⟨rfl, rfl, rfl, rfl, rfl⟩
    · exact ⟨rfl, rfl, rfl, rfl, rfl⟩
    · simp only [List.length_cons] at hlen
      omega
  · intro hlen
    rcases args with _ | ⟨a, _ | ⟨b, t⟩⟩
    · exact ⟨rfl, rfl⟩
    · exact ⟨rfl, rfl⟩
    · simp only [List.length_cons] at hlen
      omega
  · intro hlen
    rcases args with _ | ⟨a, _ | ⟨b, _ | ⟨d, _ | ⟨f, _ | ⟨g, t⟩⟩⟩⟩⟩
    · rfl
    · rfl
    · rfl
    · rfl
    · rfl
    · simp only [List.length_cons] at hlen
      omega

/-- C8 witness: concrete short lines for each command family. -/
theorem C8_witness :
    handleLine 0 emptyCache ["add", "k"] "" = (["SERVER_ERROR"], emptyCache) ∧
    handleLine 0 emptyCache ["append", "k"] "" =
      (["CLIENT_ERROR bad command line format"], emptyCache) ∧
    handleLine 0 emptyCache ["incr"] "" = (["SERVER_ERROR"], emptyCache) ∧
    handleLine 0 emptyCache ["cas", "k"] "" = (["SERVER_ERROR"], emptyCache) ∧
    handleLine 0 emptyCache ["gets"] "" = (["SERVER_ERROR"], emptyCache) := by
  have h := C8_short_request_lines 0 emptyCache "" ["k"]
  have h0 := C8_short_request_lines 0 emptyCache "" ([] : List String)
  exact ⟨(h.1 (by decide)).2.1, (h.1 (by decide)).2.2.2.1,
    (h0.2.1 (by decide)).1, h.2.2.1 (by decide), h.2.2.2.1⟩

end Servidor
